import Mathlib

/-!
Verification of the MacroPad game collection.

Shallow embedding of the game-session logic of the MacroPad games
repository (src/code.py and src/games/*.py).  Timing quantities that the
Python source keeps as floating-point seconds are modelled as rationals;
machine integers are modelled as `Nat`/`Int` (CPython integers are
unbounded, so no wrap-around is involved).  Every definition is
translated directly from the corresponding Python function; the file
then proves or refutes the frozen specification claims about them.
-/

namespace MacroPadGames

/-! ## Speed Chase (src/games/speed_chase.py)

Difficulty progression of the per-round time limit:
`INITIAL_TIME_LIMIT = 2.0`, `MINIMUM_TIME_LIMIT = 0.3`,
`TIME_DECREASE_FACTOR = 0.92`, updated in `_handle_correct_press` by
`self.time_limit = max(self.MINIMUM_TIME_LIMIT, self.time_limit * self.TIME_DECREASE_FACTOR)`.
-/

/-- Constant `INITIAL_TIME_LIMIT = 2.0` of `SpeedChase`. -/
def INITIAL_TIME_LIMIT : ℚ := 2

/-- Constant `MINIMUM_TIME_LIMIT = 0.3` of `SpeedChase`. -/
def MINIMUM_TIME_LIMIT : ℚ := 3/10

/-- Constant `TIME_DECREASE_FACTOR = 0.92` of `SpeedChase`. -/
def TIME_DECREASE_FACTOR : ℚ := 92/100

/-- One difficulty update from `SpeedChase._handle_correct_press`:
`max(self.MINIMUM_TIME_LIMIT, self.time_limit * self.TIME_DECREASE_FACTOR)`. -/
def speedChaseStep (timeLimit : ℚ) : ℚ :=
  max MINIMUM_TIME_LIMIT (timeLimit * TIME_DECREASE_FACTOR)

/-- The time limit after `n` consecutive successful rounds, starting from
`INITIAL_TIME_LIMIT`. -/
def speedChaseLimit : Nat → ℚ
  | 0 => INITIAL_TIME_LIMIT
  | n + 1 => speedChaseStep (speedChaseLimit n)

lemma minimum_le_speedChaseLimit (n : Nat) : MINIMUM_TIME_LIMIT ≤ speedChaseLimit n := by
  cases n with
  | zero =>
      simp only [speedChaseLimit, INITIAL_TIME_LIMIT, MINIMUM_TIME_LIMIT]
      norm_num
  | succ n => exact le_max_left _ _

lemma speedChaseLimit_succ_le (n : Nat) : speedChaseLimit (n + 1) ≤ speedChaseLimit n := by
  have hge := minimum_le_speedChaseLimit n
  have hnn : (0 : ℚ) ≤ speedChaseLimit n := le_trans (by norm_num [MINIMUM_TIME_LIMIT]) hge
  have hmul : speedChaseLimit n * TIME_DECREASE_FACTOR ≤ speedChaseLimit n := by
    have : speedChaseLimit n * TIME_DECREASE_FACTOR ≤ speedChaseLimit n * 1 := by
      apply mul_le_mul_of_nonneg_left _ hnn
      norm_num [TIME_DECREASE_FACTOR]
    simpa using this
  exact max_le hge hmul

lemma speedChaseStep_max (x : ℚ) :
    speedChaseStep (max (3/10) x) = max (3/10) (x * (92/100)) := by
  rcases le_total x (3/10) with hx | hx
  · rw [max_eq_left hx]
    have h1 : x * (92/100) ≤ 3/10 := by nlinarith
    rw [max_eq_left h1]
    simp only [speedChaseStep, MINIMUM_TIME_LIMIT, TIME_DECREASE_FACTOR]
    norm_num
  · rw [max_eq_right hx]
    simp only [speedChaseStep, MINIMUM_TIME_LIMIT, TIME_DECREASE_FACTOR]

lemma speedChaseLimit_closed (n : Nat) :
    speedChaseLimit n = max (3/10) (2 * (92/100 : ℚ)^n) := by
  induction n with
  | zero =>
      simp only [speedChaseLimit, INITIAL_TIME_LIMIT, pow_zero, mul_one]
      rw [max_eq_right]
      norm_num
  | succ n ih =>
      show speedChaseStep (speedChaseLimit n) = _
      rw [ih, speedChaseStep_max, pow_succ]
      ring_nf

lemma speedChaseLimit_23 : speedChaseLimit 23 = 3/10 := by
  rw [speedChaseLimit_closed]
  rw [max_eq_left]
  norm_num

lemma speedChaseStep_floor : speedChaseStep (3/10) = 3/10 := by
  simp only [speedChaseStep, MINIMUM_TIME_LIMIT, TIME_DECREASE_FACTOR]
  norm_num

/-- C8: in Speed Chase, the time limit starts at 2.0 s, each successful
round replaces it by `max(0.3, limit * 0.92)`, the resulting sequence is
monotonically non-increasing, never drops below the 0.3 s floor, and
reaches exactly the floor after 23 consecutive wins, staying there
afterwards. -/
theorem C8_speed_chase_time_limit_floor :
    speedChaseLimit 0 = 2
    ∧ (∀ n, speedChaseLimit (n + 1) = max (3/10) (speedChaseLimit n * (92/100)))
    ∧ (∀ n, speedChaseLimit (n + 1) ≤ speedChaseLimit n)
    ∧ (∀ n, (3/10 : ℚ) ≤ speedChaseLimit n)
    ∧ speedChaseLimit 23 = 3/10
    ∧ (∀ m, 23 ≤ m → speedChaseLimit m = 3/10) := by
  refine ⟨rfl, fun n => rfl, speedChaseLimit_succ_le, minimum_le_speedChaseLimit,
    speedChaseLimit_23, ?_⟩
  intro m hm
  induction m with
  | zero => omega
  | succ m ih =>
      rcases Nat.lt_or_ge 23 (m + 1) with h | h
      · have hm' : 23 ≤ m := by omega
        have := ih hm'
        show speedChaseStep (speedChaseLimit m) = 3/10
        rw [this]
        exact speedChaseStep_floor
      · have : m + 1 = 23 := by omega
        rw [this]
        exact speedChaseLimit_23

/-- Witness for C8 at concrete inputs. -/
theorem C8_witness : speedChaseLimit 30 = 3/10 :=
  C8_speed_chase_time_limit_floor.2.2.2.2.2 30 (by norm_num)

/-! ## Lights Out (src/games/lights_out.py)

`LightsOut.ADJACENCY` maps each key of the 3x4 grid to the list made of
the key itself and its up/down/left/right neighbours;
`LightsOut._toggle_lights` flips `self.lights[key]` for every key in that
list, in order. -/

/-- The `LightsOut.ADJACENCY` table (3-wide, 4-tall grid). -/
def lightsAdjacency : Nat → List Nat
  | 0 => [0, 1, 3]
  | 1 => [0, 1, 2, 4]
  | 2 => [1, 2, 5]
  | 3 => [0, 3, 4, 6]
  | 4 => [1, 3, 4, 5, 7]
  | 5 => [2, 4, 5, 8]
  | 6 => [3, 6, 7, 9]
  | 7 => [4, 6, 7, 8, 10]
  | 8 => [5, 7, 8, 11]
  | 9 => [6, 9, 10]
  | 10 => [7, 9, 10, 11]
  | 11 => [8, 10, 11]
  | _ => []

/-- One in-place flip `self.lights[key] = not self.lights[key]` from
`LightsOut._toggle_lights`. -/
def flipAt (l : List Bool) (i : Nat) : List Bool := l.set i (!l.getD i false)

/-- Model of `LightsOut._toggle_lights(key_index)` restricted to its effect on
`self.lights`: flip every key of `ADJACENCY[key_index]`, in order. -/
def toggleLights (l : List Bool) (key : Nat) : List Bool :=
  (lightsAdjacency key).foldl flipAt l

lemma getElem?_flipAt (l : List Bool) (i j : Nat) :
    (flipAt l i)[j]? = if i = j then (l[j]?).map (fun b => !b) else l[j]? := by
  unfold flipAt
  rcases eq_or_ne i j with rfl | hne
  · rw [if_pos rfl]
    rcases Nat.lt_or_ge i l.length with hi | hi
    · rw [List.getElem?_set_self hi]
      simp [List.getElem?_eq_getElem hi]
    · rw [List.set_eq_of_length_le hi, List.getElem?_eq_none hi]
      simp
  · rw [if_neg hne, List.getElem?_set_ne hne]

lemma getElem?_foldl_flipAt (ks : List Nat) (l : List Bool) (j : Nat) :
    (ks.foldl flipAt l)[j]? =
      if Even (ks.count j) then l[j]? else (l[j]?).map (fun b => !b) := by
  induction ks generalizing l with
  | nil => simp
  | cons a ks ih =>
      rw [List.foldl_cons, ih]
      rcases eq_or_ne a j with rfl | hne
      · rw [List.count_cons_self, getElem?_flipAt, if_pos rfl]
        by_cases he : Even (ks.count a)
        · rw [if_pos he, if_neg (by simp [Nat.even_add_one, he])]
        · rw [if_neg he, if_pos (by simp [Nat.even_add_one, he])]
          cases l[a]? <;> simp
      · rw [List.count_cons_of_ne (Ne.symm hne), getElem?_flipAt, if_neg hne]

lemma toggleLights_involutive (l : List Bool) (key : Nat) :
    toggleLights (toggleLights l key) key = l := by
  unfold toggleLights
  apply List.ext_getElem?
  intro j
  rw [getElem?_foldl_flipAt, getElem?_foldl_flipAt]
  by_cases he : Even ((lightsAdjacency key).count j)
  · rw [if_pos he, if_pos he]
  · rw [if_neg he, if_neg he]
    cases l[j]? <;> simp

/-- C4: in Lights Out, the toggle operation (flipping the pressed key
together with its existing up/down/left/right neighbours) is an
involution: for every grid state and every key index 0-11, toggling the
same key twice restores the prior grid. -/
theorem C4_lights_out_toggle_involution (lights : List Bool) (key : Nat)
    (hlen : lights.length = 12) (hkey : key ≤ 11) :
    toggleLights (toggleLights lights key) key = lights :=
  toggleLights_involutive lights key

/-- Witness for C4 at a concrete grid and key. -/
theorem C4_witness :
    ([true, false, true, false, true, false, true, false, true, false, true,
        false] : List Bool).length = 12
    ∧ (4 : Nat) ≤ 11
    ∧ toggleLights (toggleLights [true, false, true, false, true, false, true,
        false, true, false, true, false] 4) 4
      = [true, false, true, false, true, false, true, false, true, false, true,
          false] :=
  ⟨by decide, by decide, C4_lights_out_toggle_involution _ 4 (by decide) (by decide)⟩

/-! ## Tic-Tac-Toe (src/games/tictactoe.py)

The board is `self.board = [0] * 9` (0 = empty, 1 = player 1,
2 = player 2), played on physical keys `GRID_KEYS = [3..11]`.
`handle_key_press` places a mark, then checks `_check_winner` strictly
before the draw test `0 not in self.board`. -/

/-- Model of `TicTacToe.GRID_KEYS`: the nine physical keys of the 3x3 grid. -/
def GRID_KEYS : List Nat := [3, 4, 5, 6, 7, 8, 9, 10, 11]

/-- Model of `TicTacToe.WIN_COMBOS`: the eight winning index triples. -/
def winCombos : List (Nat × Nat × Nat) :=
  [(0, 1, 2), (3, 4, 5), (6, 7, 8), (0, 3, 6), (1, 4, 7), (2, 5, 8), (0, 4, 8), (2, 4, 6)]

/-- The test of one combo in `TicTacToe._check_winner`:
`self.board[a] != 0 and self.board[a] == self.board[b] == self.board[c]`. -/
def comboWins (board : List Nat) (c : Nat × Nat × Nat) : Bool :=
  board.getD c.1 0 != 0 &&
    (board.getD c.1 0 == board.getD c.2.1 0 && board.getD c.2.1 0 == board.getD c.2.2 0)

/-- Model of `TicTacToe._check_winner`: the mark of the first winning combo, else none. -/
def checkWinner (board : List Nat) : Option Nat :=
  match winCombos.find? (comboWins board) with
  | some c => some (board.getD c.1 0)
  | none => none

/-- A board holds three marks `p` along some row, column or diagonal. -/
def hasLine (board : List Nat) (p : Nat) : Prop :=
  ∃ c ∈ winCombos,
    board.getD c.1 0 = p ∧ board.getD c.2.1 0 = p ∧ board.getD c.2.2 0 = p

instance (board : List Nat) (p : Nat) : Decidable (hasLine board p) := by
  unfold hasLine
  infer_instance

/-- The game-state fields of the `TicTacToe` session. -/
structure TTTState where
  board : List Nat
  currentPlayer : Nat
  gameActive : Bool
  gamesPlayed : Nat
  p1Wins : Nat
  p2Wins : Nat
  draws : Nat
  score : Int
  deriving DecidableEq

/-- Model of `TicTacToe._start_new_game` restricted to the game-state fields. -/
def tttStartNewGame (s : TTTState) : TTTState :=
  { s with
      board := List.replicate 9 0,
      currentPlayer := 1,
      gameActive := true,
      gamesPlayed := s.gamesPlayed + 1 }

/-- Model of `TicTacToe._handle_win` restricted to the game-state fields. -/
def tttHandleWin (s : TTTState) (winner : Nat) : TTTState :=
  if winner = 1 then { s with gameActive := false, p1Wins := s.p1Wins + 1 }
  else { s with gameActive := false, p2Wins := s.p2Wins + 1 }

/-- Model of `TicTacToe._handle_draw` restricted to the game-state fields. -/
def tttHandleDraw (s : TTTState) : TTTState :=
  { s with gameActive := false, draws := s.draws + 1 }

/-- Model of `TicTacToe.handle_key_press` restricted to the game-state fields
(audio and LED calls have no state effect). -/
def tttHandleKeyPress (s : TTTState) (keyIndex : Nat) : TTTState :=
  if s.gameActive = false then tttStartNewGame s
  else if keyIndex ∉ GRID_KEYS then s
  else
    let gridIdx := GRID_KEYS.indexOf keyIndex
    if s.board.getD gridIdx 0 ≠ 0 then s
    else
      let board' := s.board.set gridIdx s.currentPlayer
      let s' := { s with board := board' }
      match checkWinner board' with
      | some w => tttHandleWin s' w
      | none =>
          if 0 ∉ board' then tttHandleDraw s'
          else { s' with currentPlayer := if s.currentPlayer = 1 then 2 else 1 }

lemma comboWins_of_line {board : List Nat} {p : Nat} {c : Nat × Nat × Nat}
    (hp : p ≠ 0) (h1 : board.getD c.1 0 = p) (h2 : board.getD c.2.1 0 = p)
    (h3 : board.getD c.2.2 0 = p) : comboWins board c = true := by
  simp only [comboWins]
  rw [h1, h2, h3]
  simp [hp]

lemma checkWinner_of_hasLine {board : List Nat} {p : Nat} (hp : p ≠ 0)
    (h : hasLine board p) :
    ∃ q, checkWinner board = some q ∧ q ≠ 0 ∧ hasLine board q := by
  obtain ⟨c, hc, h1, h2, h3⟩ := h
  have hsome : (winCombos.find? (comboWins board)).isSome :=
    List.find?_isSome.mpr ⟨c, hc, comboWins_of_line hp h1 h2 h3⟩
  obtain ⟨c', hc'⟩ := Option.isSome_iff_exists.mp hsome
  have hcw' := List.find?_some hc'
  simp only [comboWins, Bool.and_eq_true, bne_iff_ne, beq_iff_eq] at hcw'
  obtain ⟨hne, he1, he2⟩ := hcw'
  refine ⟨board.getD c'.1 0, ?_, hne, ?_⟩
  · simp [checkWinner, hc']
  · exact ⟨c', List.mem_of_find?_eq_some hc', rfl, he1.symm, (he1.trans he2).symm⟩

lemma winCombos_bounds : ∀ c ∈ winCombos, c.1 < 9 ∧ c.2.1 < 9 ∧ c.2.2 < 9 := by
  decide

/-- C2: after every placement the winner check runs strictly before the
draw check.  (1) A board with a line of non-empty marks makes
`_check_winner` return a non-empty mark that owns a line; (2) with marks
in {0,1,2}, if `p` in {1,2} owns a line and the other player does not,
`_check_winner` returns exactly `p` (no fullness assumption, so this also
holds for a filled board); (3) a placement that produces a board with a
line is handled as a win, never as a draw: the game deactivates, the
draw counter is unchanged, and one win counter is incremented. -/
theorem C2_ttt_win_checked_before_draw :
    (∀ (board : List Nat) (p : Nat), p ≠ 0 → hasLine board p →
      ∃ q, checkWinner board = some q ∧ q ≠ 0 ∧ hasLine board q)
    ∧ (∀ (board : List Nat) (p : Nat), board.length = 9 → (∀ x ∈ board, x ≤ 2) →
        (p = 1 ∨ p = 2) → hasLine board p → ¬hasLine board (3 - p) →
        checkWinner board = some p)
    ∧ (∀ (s : TTTState) (k : Nat), s.gameActive = true → k ∈ GRID_KEYS →
        s.board.getD (GRID_KEYS.indexOf k) 0 = 0 →
        (∃ p, p ≠ 0 ∧
          hasLine (s.board.set (GRID_KEYS.indexOf k) s.currentPlayer) p) →
        (tttHandleKeyPress s k).gameActive = false
        ∧ (tttHandleKeyPress s k).draws = s.draws
        ∧ (tttHandleKeyPress s k).p1Wins + (tttHandleKeyPress s k).p2Wins
            = s.p1Wins + s.p2Wins + 1) := by
  refine ⟨fun board p hp h => checkWinner_of_hasLine hp h, ?_, ?_⟩
  · intro board p hlen hval hp hline hother
    obtain ⟨q, hq, hq0, hqline⟩ :=
      checkWinner_of_hasLine (p := p) (by rcases hp with rfl | rfl <;> omega) hline
    have hqline' := hqline
    obtain ⟨c, hc, h1, _, _⟩ := hqline'
    have hc1 : c.1 < 9 := (winCombos_bounds c hc).1
    have hqmem : q ∈ board := by
      rw [← h1, List.getD_eq_getElem board 0 (by omega)]
      exact List.getElem_mem _
    have hq2 : q ≤ 2 := hval q hqmem
    have hqp : q = p := by
      by_contra hne
      apply hother
      have h3p : q = 3 - p := by rcases hp with rfl | rfl <;> omega
      rw [← h3p]
      exact hqline
    rw [← hqp]
    exact hq
  · intro s k hact hk hempty hline
    obtain ⟨p, hp, hpl⟩ := hline
    obtain ⟨q, hq, _, _⟩ := checkWinner_of_hasLine hp hpl
    simp only [tttHandleKeyPress, hact, Bool.true_eq_false, if_false]
    rw [if_neg (not_not_intro hk), if_neg (by simpa using hempty)]
    simp only [hq, tttHandleWin]
    by_cases hw : q = 1
    · rw [if_pos hw]
      refine ⟨rfl, rfl, ?_⟩
      show s.p1Wins + 1 + s.p2Wins = s.p1Wins + s.p2Wins + 1
      omega
    · rw [if_neg hw]
      refine ⟨rfl, rfl, ?_⟩
      show s.p1Wins + (s.p2Wins + 1) = s.p1Wins + s.p2Wins + 1
      omega

/-- Witness for C2 at a concrete board and state. -/
theorem C2_witness :
    ((1 : Nat) ≠ 0 ∧ hasLine [1, 1, 1, 2, 2, 0, 0, 0, 0] 1
      ∧ ∃ q, checkWinner [1, 1, 1, 2, 2, 0, 0, 0, 0] = some q ∧ q ≠ 0
          ∧ hasLine [1, 1, 1, 2, 2, 0, 0, 0, 0] q)
    ∧ checkWinner [2, 2, 2, 1, 1, 0, 1, 0, 0] = some 2
    ∧ ((tttHandleKeyPress ⟨[1, 1, 0, 2, 2, 0, 0, 0, 0], 1, true, 1, 0, 0, 0, 0⟩
          5).gameActive = false
        ∧ (tttHandleKeyPress ⟨[1, 1, 0, 2, 2, 0, 0, 0, 0], 1, true, 1, 0, 0, 0, 0⟩
            5).draws = 0
        ∧ (tttHandleKeyPress ⟨[1, 1, 0, 2, 2, 0, 0, 0, 0], 1, true, 1, 0, 0, 0, 0⟩
              5).p1Wins
            + (tttHandleKeyPress ⟨[1, 1, 0, 2, 2, 0, 0, 0, 0], 1, true, 1, 0, 0,
              0, 0⟩ 5).p2Wins = 0 + 0 + 1) := by
  refine ⟨⟨by decide, by decide, ?_⟩, ?_, ?_⟩
  · exact C2_ttt_win_checked_before_draw.1 _ 1 (by decide) (by decide)
  · exact C2_ttt_win_checked_before_draw.2.1 _ 2 (by decide) (by decide)
      (Or.inr rfl) (by decide) (by decide)
  · exact C2_ttt_win_checked_before_draw.2.2 _ 5 (by decide) (by decide) (by decide)
      ⟨1, by decide, by decide⟩

/-- C10: pressing an already-occupied grid key leaves the whole
Tic-Tac-Toe state unchanged (board, turn, counters and score). -/
theorem C10_ttt_occupied_press_is_noop (s : TTTState) (k : Nat)
    (hact : s.gameActive = true) (hk : k ∈ GRID_KEYS)
    (htaken : s.board.getD (GRID_KEYS.indexOf k) 0 ≠ 0) :
    tttHandleKeyPress s k = s := by
  simp only [tttHandleKeyPress, hact, Bool.true_eq_false, if_false]
  rw [if_neg (not_not_intro hk), if_pos htaken]

/-- Witness for C10 at a concrete state and key. -/
theorem C10_witness :
    tttHandleKeyPress ⟨[1, 0, 0, 0, 2, 0, 0, 0, 0], 1, true, 1, 0, 0, 0, 0⟩ 3
      = ⟨[1, 0, 0, 0, 2, 0, 0, 0, 0], 1, true, 1, 0, 0, 0, 0⟩ :=
  C10_ttt_occupied_press_is_noop _ 3 (by decide) (by decide) (by decide)

/-! ## Simon Says (src/games/simon_says.py)

The game shows `self.sequence` (built from random members of
`SIMON_KEYS`) and then consumes one key press at a time in
`handle_key_press`: a non-Simon key only flashes, a wrong Simon key ends
the game at once, and the `len(sequence)`-th correct key completes the
level, appends one random step and replays. -/

/-- Model of `SimonSays.SIMON_KEYS`: the four active Simon keys. -/
def SIMON_KEYS : List Nat := [0, 1, 3, 4]

/-- Game-state fields of `SimonSays` relevant to input handling. -/
structure SimonState where
  sequence : List Nat
  playerPosition : Nat
  waitingForInput : Bool
  isRunning : Bool
  gameOver : Bool
  score : Nat
  deriving DecidableEq

/-- Model of `SimonSays._handle_game_over` restricted to the game-state fields. -/
def simonGameOver (s : SimonState) : SimonState :=
  { s with isRunning := false, gameOver := true }

/-- Model of `SimonSays._handle_level_complete` (which sets `score = len(sequence)`,
appends one random step via `_add_to_sequence`, and replays via
`_play_sequence`, leaving `player_position = 0` and
`waiting_for_input = True`), restricted to the game-state fields.
`newKey` stands for the key chosen by `random.choice(SIMON_KEYS)`. -/
def simonLevelComplete (newKey : Nat) (s : SimonState) : SimonState :=
  { s with
      score := s.sequence.length,
      sequence := s.sequence ++ [newKey],
      playerPosition := 0,
      waitingForInput := true }

/-- Model of `SimonSays.handle_key_press` restricted to the game-state fields. -/
def simonHandleKeyPress (newKey : Nat) (s : SimonState) (keyIndex : Nat) :
    SimonState :=
  if s.waitingForInput = false then s
  else if keyIndex ∉ SIMON_KEYS then s
  else if keyIndex = s.sequence.getD s.playerPosition 0 then
    let s' := { s with playerPosition := s.playerPosition + 1 }
    if s'.playerPosition ≥ s.sequence.length then simonLevelComplete newKey s'
    else s'
  else simonGameOver s

/-- Folding a list of key presses through `handle_key_press`. -/
def simonFeed (newKey : Nat) (s : SimonState) (inputs : List Nat) : SimonState :=
  inputs.foldl (simonHandleKeyPress newKey) s

/-- The state right after `_play_sequence` returns: input phase of a round. -/
def simonRoundStart (seq : List Nat) (score : Nat) : SimonState :=
  ⟨seq, 0, true, true, false, score⟩

lemma simonHandleKeyPress_correct_mid {seq : List Nat} {j score newKey : Nat}
    (hj1 : j + 1 < seq.length) (hmem : seq.getD j 0 ∈ SIMON_KEYS) :
    simonHandleKeyPress newKey ⟨seq, j, true, true, false, score⟩ (seq.getD j 0)
      = ⟨seq, j + 1, true, true, false, score⟩ := by
  simp only [simonHandleKeyPress]
  rw [if_neg (by simp), if_neg (not_not_intro hmem)]
  simp only [eq_self_iff_true, if_true]
  rw [if_neg (by omega)]

lemma simonFeed_take (seq : List Nat) (score newKey : Nat)
    (hmem : ∀ x ∈ seq, x ∈ SIMON_KEYS) :
    ∀ j, j < seq.length →
      simonFeed newKey (simonRoundStart seq score) (seq.take j)
        = ⟨seq, j, true, true, false, score⟩ := by
  intro j
  induction j with
  | zero => intro _; simp [simonFeed, simonRoundStart]
  | succ j ih =>
      intro hj
      have hjlt : j < seq.length := by omega
      have hget : seq[j]? = some seq[j] := List.getElem?_eq_getElem hjlt
      rw [simonFeed, List.take_succ, hget, Option.toList_some, List.foldl_append]
      rw [show List.foldl (simonHandleKeyPress newKey) (simonRoundStart seq score)
          (seq.take j) = simonFeed newKey (simonRoundStart seq score) (seq.take j)
          from rfl]
      rw [ih hjlt, List.foldl_cons, List.foldl_nil]
      have hgd : seq.getD j 0 = seq[j] := by
        simp [List.getD_eq_getElem?_getD, hget]
      rw [show seq[j] = seq.getD j 0 from hgd.symm]
      exact simonHandleKeyPress_correct_mid hj
        (hmem _ (by rw [hgd]; exact List.getElem_mem hjlt))

/-- C5: in Simon Says, with a current sequence of length `n` (every entry a
Simon key), (1) after `j < n` correct inputs in original order the round is
still in progress at position `j` with the same sequence, so fewer than `n`
inputs never advance the level; (2) feeding exactly the `n` correct inputs
in order completes the level precisely when the position reaches `n`: the
score becomes `n`, one random step is appended, and the replay starts at
position 0; (3) a single incorrect Simon key at any position `j < n` ends
the game immediately (`is_running = False`, `game_over = True`). -/
theorem C5_simon_exact_inputs_and_wrong_key (seq : List Nat)
    (score newKey : Nat) (hlen : 0 < seq.length)
    (hmem : ∀ x ∈ seq, x ∈ SIMON_KEYS) :
    (∀ j, j < seq.length →
      simonFeed newKey (simonRoundStart seq score) (seq.take j)
        = ⟨seq, j, true, true, false, score⟩)
    ∧ simonFeed newKey (simonRoundStart seq score) seq
        = ⟨seq ++ [newKey], 0, true, true, false, seq.length⟩
    ∧ (∀ j k, j < seq.length → k ∈ SIMON_KEYS → k ≠ seq.getD j 0 →
        simonHandleKeyPress newKey ⟨seq, j, true, true, false, score⟩ k
          = ⟨seq, j, true, false, true, score⟩) := by
  refine ⟨simonFeed_take seq score newKey hmem, ?_, ?_⟩
  · obtain ⟨m, hm⟩ : ∃ m, seq.length = m + 1 := ⟨seq.length - 1, by omega⟩
    have htake : seq.take seq.length = seq := List.take_length seq
    have hmlt : m < seq.length := by omega
    have hget : seq[m]? = some seq[m] := List.getElem?_eq_getElem hmlt
    have hsplit : seq = seq.take m ++ [seq[m]] := by
      conv_lhs => rw [← htake, hm, List.take_succ, hget]
      rfl
    rw [show simonFeed newKey (simonRoundStart seq score) seq
        = simonFeed newKey (simonRoundStart seq score) (seq.take m ++ [seq[m]])
      from congrArg _ hsplit]
    rw [simonFeed, List.foldl_append]
    rw [show List.foldl (simonHandleKeyPress newKey) (simonRoundStart seq score)
        (seq.take m) = simonFeed newKey (simonRoundStart seq score) (seq.take m)
        from rfl]
    rw [simonFeed_take seq score newKey hmem m hmlt, List.foldl_cons,
      List.foldl_nil]
    have hgd : seq.getD m 0 = seq[m] := by
      simp [List.getD_eq_getElem?_getD, hget]
    simp only [simonHandleKeyPress]
    rw [if_neg (by simp),
      if_neg (not_not_intro (hmem _ (List.getElem_mem hmlt))),
      if_pos hgd.symm, if_pos (by simp [hm])]
    simp [simonLevelComplete]
  · intro j k hj hkmem hkne
    simp only [simonHandleKeyPress]
    rw [if_neg (by simp), if_neg (not_not_intro hkmem), if_neg hkne]
    rfl

/-- Witness for C5 at a concrete sequence. -/
theorem C5_witness :
    (0 < ([0, 1, 3] : List Nat).length ∧ (∀ x ∈ ([0, 1, 3] : List Nat), x ∈ SIMON_KEYS))
    ∧ simonFeed 4 (simonRoundStart [0, 1, 3] 2) [0, 1]
        = ⟨[0, 1, 3], 2, true, true, false, 2⟩
    ∧ simonFeed 4 (simonRoundStart [0, 1, 3] 2) [0, 1, 3]
        = ⟨[0, 1, 3, 4], 0, true, true, false, 3⟩
    ∧ simonHandleKeyPress 4 ⟨[0, 1, 3], 1, true, true, false, 2⟩ 3
        = ⟨[0, 1, 3], 1, true, false, true, 2⟩ := by
  have h := C5_simon_exact_inputs_and_wrong_key [0, 1, 3] 2 4 (by decide) (by decide)
  exact ⟨⟨by decide, by decide⟩, h.1 2 (by decide), h.2.1,
    h.2.2 1 3 (by decide) (by decide) (by decide)⟩

/-! ## Reaction Timer (src/games/reaction_timer.py)

`NUM_ROUNDS = 5`; a press while `waiting_for_green` is a false start:
`_handle_false_start` appends the fixed 1000 ms penalty to
`self.reaction_times` and either starts the next round or, when
`round >= NUM_ROUNDS`, ends the game. -/

/-- Constant `ReactionTimer.NUM_ROUNDS = 5`. -/
def NUM_ROUNDS : Nat := 5

/-- Python `int(...)` truncation toward zero, on a rational. -/
def ratTrunc (q : ℚ) : Int := if q < 0 then -⌊-q⌋ else ⌊q⌋

/-- Score computation of `ReactionTimer._handle_game_over`: drop the
entries that are not `< 999` ms, average the rest (999 if none remain),
then `max(0, int(500 - avg_time))`. -/
def reactionFinalScore (times : List ℚ) : Int :=
  let validTimes := times.filter (fun t => t < 999)
  let avg : ℚ := if validTimes.length ≠ 0 then validTimes.sum / validTimes.length else 999
  max 0 (ratTrunc (500 - avg))

/-- Game-state fields of `ReactionTimer` relevant to the round flow. -/
structure ReactionState where
  round : Nat
  reactionTimes : List ℚ
  waitingForGreen : Bool
  waitingForPress : Bool
  falseStart : Bool
  isRunning : Bool
  gameOver : Bool
  score : Int
  deriving DecidableEq

/-- Model of `ReactionTimer._handle_game_over` restricted to the game-state fields. -/
def reactionHandleGameOver (s : ReactionState) : ReactionState :=
  { s with
      isRunning := false,
      gameOver := true,
      score := reactionFinalScore s.reactionTimes }

/-- Model of `ReactionTimer._start_round` restricted to the game-state fields (the
random `wait_until` deadline is timing data not modelled here). -/
def reactionStartRound (s : ReactionState) : ReactionState :=
  { s with
      round := s.round + 1,
      falseStart := false,
      waitingForGreen := true,
      waitingForPress := false }

/-- Model of `ReactionTimer._handle_false_start`: record the 1000 ms penalty entry,
then game over when `round >= NUM_ROUNDS`, else next round. -/
def reactionHandleFalseStart (s : ReactionState) : ReactionState :=
  let s1 : ReactionState :=
    { s with
        falseStart := true,
        waitingForGreen := false,
        reactionTimes := s.reactionTimes ++ [1000] }
  if s1.round ≥ NUM_ROUNDS then reactionHandleGameOver s1
  else reactionStartRound s1

/-- C7: a false start records a fixed 1000 ms entry in the reaction-time
list and does not immediately end the game: while fewer than the
configured 5 rounds have been played, the round counter advances and the
running/game-over flags are untouched (round 1 of 5 advances to round 2);
only when the false start happens on the final configured round does the
game end. -/
theorem C7_reaction_false_start_advances (s : ReactionState) :
    (reactionHandleFalseStart s).reactionTimes = s.reactionTimes ++ [1000]
    ∧ (s.round < NUM_ROUNDS →
        (reactionHandleFalseStart s).round = s.round + 1
        ∧ (reactionHandleFalseStart s).isRunning = s.isRunning
        ∧ (reactionHandleFalseStart s).gameOver = s.gameOver)
    ∧ (NUM_ROUNDS ≤ s.round →
        (reactionHandleFalseStart s).isRunning = false
        ∧ (reactionHandleFalseStart s).gameOver = true) := by
  by_cases h : s.round ≥ NUM_ROUNDS
  · rw [reactionHandleFalseStart, if_pos h]
    exact ⟨rfl, fun hlt => absurd h (by omega), fun _ => ⟨rfl, rfl⟩⟩
  · rw [reactionHandleFalseStart, if_neg h]
    exact ⟨rfl, fun _ => ⟨rfl, rfl, rfl⟩, fun hge => absurd hge h⟩

/-- Witness for C7: a false start on round 1 of 5 with an empty history. -/
theorem C7_witness :
    (reactionHandleFalseStart ⟨1, [], true, false, false, true, false, 0⟩).reactionTimes
        = [] ++ [1000]
    ∧ (reactionHandleFalseStart ⟨1, [], true, false, false, true, false, 0⟩).round = 1 + 1
    ∧ (reactionHandleFalseStart ⟨1, [], true, false, false, true, false, 0⟩).isRunning = true
    ∧ (reactionHandleFalseStart ⟨1, [], true, false, false, true, false, 0⟩).gameOver = false := by
  have h := C7_reaction_false_start_advances ⟨1, [], true, false, false, true, false, 0⟩
  have h2 := h.2.1 (by norm_num [NUM_ROUNDS])
  exact ⟨h.1, h2.1, h2.2.1, h2.2.2⟩

/-! ## Color Match (src/games/color_match.py)

`GAME_DURATION = 30.0` is the global session deadline; each round also
has a `round_time` deadline.  In `update()`, expiry of the global
deadline calls `_handle_game_over` and returns `False`; expiry of the
round deadline only starts a new round and returns `True`. -/

/-- Constant `ColorMatch.GAME_DURATION = 30.0`. -/
def GAME_DURATION : ℚ := 30

/-- Game-state fields of `ColorMatch` relevant to the two deadlines. -/
structure ColorMatchState where
  roundTime : ℚ
  roundStartTime : ℚ
  gameStartTime : ℚ
  level : Nat
  foundKeys : List Nat
  inRound : Bool
  isRunning : Bool
  gameOver : Bool
  score : Int
  deriving DecidableEq

/-- Model of `ColorMatch._handle_game_over` restricted to the game-state fields. -/
def colorMatchHandleGameOver (s : ColorMatchState) : ColorMatchState :=
  { s with isRunning := false, gameOver := true }

/-- Model of `ColorMatch._start_new_round` restricted to the game-state fields.
`newRoundStart` stands for the `time.monotonic()` value captured after the
target display and countdown animation; the random target colour and key
colours are not modelled. -/
def colorMatchStartNewRound (s : ColorMatchState) (newRoundStart : ℚ) :
    ColorMatchState :=
  { s with
      level := s.level + 1,
      foundKeys := [],
      inRound := true,
      roundStartTime := newRoundStart }

/-- Model of `ColorMatch.update` on a tick with no key event and no encoder press:
first the global 30 s deadline (game over, return `False`), then the
per-round deadline (new round, return `True`), else continue unchanged.
Returns the state after the tick and the boolean returned by `update()`. -/
def colorMatchUpdate (s : ColorMatchState) (currentTime newRoundStart : ℚ) :
    ColorMatchState × Bool :=
  if s.isRunning = false then (s, false)
  else if currentTime - s.gameStartTime ≥ GAME_DURATION then
    (colorMatchHandleGameOver s, false)
  else if s.inRound = true ∧ currentTime - s.roundStartTime ≥ s.roundTime then
    (colorMatchStartNewRound s newRoundStart, true)
  else (s, s.isRunning)

/-- C9: in Color Match, expiry of the per-round deadline before the
global deadline does not end the game: `update()` starts a new round
(level incremented, found-key set cleared) and returns `True`, with the
running/game-over flags untouched; expiry of the global 30-second
deadline makes `update()` return `False` with the game-over state set. -/
theorem C9_color_match_round_timeout_soft (s : ColorMatchState)
    (t r : ℚ) (hrun : s.isRunning = true) :
    (t - s.gameStartTime < GAME_DURATION → s.inRound = true →
      s.roundTime ≤ t - s.roundStartTime →
      colorMatchUpdate s t r = (colorMatchStartNewRound s r, true)
      ∧ (colorMatchStartNewRound s r).isRunning = true
      ∧ (colorMatchStartNewRound s r).gameOver = s.gameOver
      ∧ (colorMatchStartNewRound s r).level = s.level + 1)
    ∧ (GAME_DURATION ≤ t - s.gameStartTime →
      colorMatchUpdate s t r = (colorMatchHandleGameOver s, false)
      ∧ (colorMatchHandleGameOver s).isRunning = false
      ∧ (colorMatchHandleGameOver s).gameOver = true) := by
  constructor
  · intro hgame hin hround
    refine ⟨?_, by simp [colorMatchStartNewRound, hrun], rfl, rfl⟩
    rw [colorMatchUpdate, if_neg (by simp [hrun]),
      if_neg (by simpa using not_le.mpr hgame), if_pos ⟨hin, by simpa using hround⟩]
  · intro hgame
    refine ⟨?_, rfl, rfl⟩
    rw [colorMatchUpdate, if_neg (by simp [hrun]), if_pos (by simpa using hgame)]

/-- Witness for C9 at concrete times: a round deadline expired 2 s into
the 30 s session, and a global deadline expiry. -/
theorem C9_witness :
    (colorMatchUpdate ⟨5, 10, 10, 1, [2], true, true, false, 40⟩ 17 18
        = (colorMatchStartNewRound ⟨5, 10, 10, 1, [2], true, true, false, 40⟩ 18, true)
      ∧ (colorMatchStartNewRound ⟨5, 10, 10, 1, [2], true, true, false, 40⟩ 18).isRunning
          = true)
    ∧ (colorMatchUpdate ⟨5, 38, 10, 1, [2], true, true, false, 40⟩ 41 42
        = (colorMatchHandleGameOver ⟨5, 38, 10, 1, [2], true, true, false, 40⟩, false)
      ∧ (colorMatchHandleGameOver ⟨5, 38, 10, 1, [2], true, true, false, 40⟩).gameOver
          = true) := by
  have h1 := C9_color_match_round_timeout_soft
    ⟨5, 10, 10, 1, [2], true, true, false, 40⟩ 17 18 rfl
  have h2 := C9_color_match_round_timeout_soft
    ⟨5, 38, 10, 1, [2], true, true, false, 40⟩ 41 42 rfl
  have ha := h1.1 (by norm_num [GAME_DURATION]) rfl (by norm_num)
  have hb := h2.2 (by norm_num [GAME_DURATION])
  exact ⟨⟨ha.1, ha.2.1⟩, hb.1, hb.2.2⟩

/-! ## Hot Potato (src/games/hot_potato.py)

When `update()` observes `round_end_time - current_time <= 0` it calls
`_handle_explosion`, which first plays the explosion animation
(`play_tone(200, 0.3)`, `time.sleep(0.3)`, `play_tone(150, 0.3)`,
`time.sleep(0.3)`) and only then computes
`time_since_pass = time.monotonic() - self.last_move_time`, classifying
the player as caught when `time_since_pass < 0.3`.  The clock therefore
reads at least `tickTime + 0.6` at the check (the two sleeps; the tones
can only add further delay). -/

/-- Duration of the two `time.sleep(0.3)` calls of
`HotPotato._handle_explosion` that run between the expiry tick and the
possession check. -/
def EXPLOSION_ANIMATION_SLEEPS : ℚ := 3/5

/-- The possession classification of `HotPotato._handle_explosion`:
`tickTime` is the `update()` clock reading that observed the round
expiry, `lastMoveTime` is `self.last_move_time` (the last pass of the
potato), and `extraDelay ≥ 0` is any additional blocking time of the two
`play_tone` calls.  The player is caught exactly when
`time_since_pass < 0.3` at the post-animation check. -/
def hotPotatoCaught (tickTime lastMoveTime extraDelay : ℚ) : Prop :=
  tickTime + EXPLOSION_ANIMATION_SLEEPS + extraDelay - lastMoveTime < 3/10

instance (t l e : ℚ) : Decidable (hotPotatoCaught t l e) := by
  unfold hotPotatoCaught
  infer_instance

/-- The caught branch is unreachable: the last pass precedes the expiry
tick, so the measured gap is always at least the 0.6 s animation, never
below 0.3 s. -/
theorem hotPotatoCaught_unreachable (tickTime lastMoveTime extraDelay : ℚ)
    (hpass : lastMoveTime ≤ tickTime) (hdelay : 0 ≤ extraDelay) :
    ¬hotPotatoCaught tickTime lastMoveTime extraDelay := by
  unfold hotPotatoCaught EXPLOSION_ANIMATION_SLEEPS
  intro h
  linarith

/-- C1 (refuting evaluation): in the spec scenario - round expiry observed
at t = 2.0 s, last pass at t = 1.95 s - the code classifies the player as
safe, not caught: at the post-animation check the measured gap is
2.0 + 0.6 - 1.95 = 0.65 s, which is not below 0.3 s.  The claim (and the
game's own stated intent of catching a player who held the potato at the
explosion) says this player is caught. -/
theorem C1_hot_potato_scenario_is_safe_not_caught :
    ¬hotPotatoCaught 2 (39/20) 0 := by
  unfold hotPotatoCaught EXPLOSION_ANIMATION_SLEEPS
  norm_num

/-! ## Score store (src/code.py, `MenuSystem`)

`GAMES` fixes the known game names; `_load_scores` builds the all-zero
default map, overrides known entries from the parsed JSON file, ignores
unknown persisted names, and returns the defaults when the file is
missing or unparseable; `_save_scores` writes the map with `json.dump`
(JSON round-trips a string-keyed integer map exactly). -/

/-- The game names of the `GAMES` registry in src/code.py. -/
def knownGames : List String :=
  ["Speed Chase", "Simon Says", "Whack-a-Mole", "Color Match", "Memory Grid",
    "Lights Out", "Reaction", "Piano", "Pattern Copy", "Hot Potato",
    "Tic-Tac-Toe"]

/-- Model of `MenuSystem._load_scores`: `none` models a missing or unparseable
scores file (`OSError`/`ValueError`), `some entries` the parsed JSON
object as an association list. -/
def loadScores (saved : Option (List (String × Int))) : List (String × Int) :=
  match saved with
  | none => knownGames.map (fun name => (name, 0))
  | some entries =>
      knownGames.map (fun name =>
        (name,
          match entries.lookup name with
          | some v => v
          | none => 0))

/-- Model of `MenuSystem._save_scores`: `json.dump` followed by `json.load`
round-trips the string-keyed integer map exactly, so the persisted
content is the map itself. -/
def saveScores (scores : List (String × Int)) : List (String × Int) := scores

lemma lookup_map_pair (l : List String) (f : String → Int) (x : String) :
    (l.map (fun name => (name, f name))).lookup x
      = if x ∈ l then some (f x) else none := by
  induction l with
  | nil => simp
  | cons a l ih =>
      by_cases hax : a = x
      · subst hax
        simp [List.lookup]
      · have hbe : (x == a) = false := beq_eq_false_iff_ne.mpr (Ne.symm hax)
        simp only [List.map_cons, List.lookup, hbe]
        rw [ih]
        simp [List.mem_cons, Ne.symm hax]

/-- C6: saving a high-score map whose entry for "Piano" is 120 and
loading it back yields 120 for "Piano" and 0 for every other known game;
on load, persisted entries with unknown names are ignored (absent from
the loaded map), missing entries default to 0, and a malformed or
missing file falls back to the all-zero default map. -/
theorem C6_score_persistence_round_trip :
    (loadScores (some (saveScores [("Piano", 120)]))).lookup ("Piano") = some 120
    ∧ (∀ name ∈ knownGames, name ≠ "Piano" →
        (loadScores (some (saveScores [("Piano", 120)]))).lookup name = some 0)
    ∧ (∀ saved name, name ∉ knownGames →
        (loadScores (some saved)).lookup name = none)
    ∧ (∀ saved name, name ∈ knownGames → saved.lookup name = none →
        (loadScores (some saved)).lookup name = some 0)
    ∧ (∀ name ∈ knownGames, (loadScores none).lookup name = some 0) := by
  refine ⟨?_, ?_, ?_, ?_, ?_⟩
  · decide
  · decide
  · intro saved name hname
    rw [loadScores, lookup_map_pair, if_neg hname]
  · intro saved name hname hmiss
    rw [loadScores, lookup_map_pair, if_pos hname, hmiss]
  · intro name hname
    rw [loadScores, lookup_map_pair, if_pos hname]

/-- Witness for C6 at concrete names and saved data. -/
theorem C6_witness :
    ("Lights Out" ∈ knownGames ∧ "Lights Out" ≠ "Piano"
      ∧ (loadScores (some (saveScores [("Piano", 120)]))).lookup ("Lights Out")
          = some 0)
    ∧ (loadScores (some [("Bogus Game", 7)])).lookup ("Bogus Game") = none
    ∧ (loadScores (some [("Bogus Game", 7)])).lookup ("Reaction") = some 0
    ∧ (loadScores none).lookup ("Piano") = some 0 := by
  refine ⟨⟨by decide, by decide, ?_⟩, ?_, ?_, ?_⟩
  · exact C6_score_persistence_round_trip.2.1 "Lights Out" (by decide) (by decide)
  · exact C6_score_persistence_round_trip.2.2.1 [("Bogus Game", 7)] "Bogus Game"
      (by decide)
  · exact C6_score_persistence_round_trip.2.2.2.1 [("Bogus Game", 7)] "Reaction"
      (by decide) (by decide)
  · exact C6_score_persistence_round_trip.2.2.2.2 "Piano" (by decide)

/-! ## Score transitions across all eleven games

Every assignment to `self.score` in src/games (exhaustively: the
`score = 0` initialisations/resets in `BaseGame.__init__` and each
game's `reset()`, and the per-game statements listed on each
constructor).  Piano and Tic-Tac-Toe never change the score after
initialisation. -/

/-- One score-mutating statement of some game, with the game-local data
it reads as parameters. -/
inductive ScoreOp where
  /-- Model of `BaseGame.__init__` / every game's `reset()`: `self.score = 0`. -/
  | reset
  /-- Model of `SpeedChase._handle_correct_press`:
  `score += BASE_POINTS + max(0, time_bonus)`. -/
  | speedChaseCorrect (timeBonus : Int)
  /-- Model of `SimonSays._handle_level_complete`: `score = len(self.sequence)`. -/
  | simonLevel (seqLen : Nat)
  /-- Model of `WhackAMole._handle_hit`: `score += POINTS_PER_HIT` (10). -/
  | whackHit
  /-- Model of `WhackAMole._handle_miss`: `score = max(0, score - MISS_PENALTY)` (5). -/
  | whackMiss
  /-- Model of `ColorMatch._handle_correct`: `score += POINTS_PER_CORRECT` (10). -/
  | colorCorrect
  /-- Model of `ColorMatch._handle_wrong`: `score = max(0, score + POINTS_PER_WRONG)`
  (`POINTS_PER_WRONG = -5`). -/
  | colorWrong
  /-- Model of `ColorMatch._handle_round_complete`: `score += 20`. -/
  | colorRoundBonus
  /-- Model of `MemoryGrid._handle_level_complete`: `score += pattern_size * 10`. -/
  | memoryLevel (patternSize : Nat)
  /-- Model of `PatternCopy._handle_round_complete`: `score += pattern_size * 10`. -/
  | patternRound (patternSize : Nat)
  /-- Model of `LightsOut._handle_victory`:
  `score = max(10, base_score - move_penalty + level_bonus)` with
  `base_score = 100`, `move_penalty = move_count * 2`,
  `level_bonus = level * 20`. -/
  | lightsVictory (moveCount level : Nat)
  /-- Model of `ReactionTimer._handle_game_over`: `score = max(0, int(500 - avg_time))`
  over the recorded reaction times. -/
  | reactionOver (times : List ℚ)
  /-- Model of `HotPotato._handle_safe`: `score += 10`. -/
  | hotPotatoSafe
  /-- Model of `HotPotato._handle_victory`: `score += self.survived * 20`. -/
  | hotPotatoVictory (survived : Nat)

/-- The effect of one score-mutating statement on the score. -/
def scoreStep : ScoreOp → Int → Int
  | .reset, _ => 0
  | .speedChaseCorrect b, s => s + (10 + max 0 b)
  | .simonLevel n, _ => (n : Int)
  | .whackHit, s => s + 10
  | .whackMiss, s => max 0 (s - 5)
  | .colorCorrect, s => s + 10
  | .colorWrong, s => max 0 (s + (-5))
  | .colorRoundBonus, s => s + 20
  | .memoryLevel p, s => s + (p : Int) * 10
  | .patternRound p, s => s + (p : Int) * 10
  | .lightsVictory m l, _ => max 10 (100 - (m : Int) * 2 + (l : Int) * 20)
  | .reactionOver ts, _ => reactionFinalScore ts
  | .hotPotatoSafe, s => s + 10
  | .hotPotatoVictory k, s => s + (k : Int) * 20

/-- The operations that reassign or penalise the score (each clamped at a
non-negative floor); every other operation adds a non-negative amount. -/
def ScoreOp.rescores : ScoreOp → Bool
  | .reset | .whackMiss | .colorWrong | .simonLevel _ | .lightsVictory _ _
  | .reactionOver _ => true
  | _ => false

/-- The score after a sequence of score-mutating statements, starting
from the initial `self.score = 0` of `BaseGame.__init__`. -/
def scoreRun (ops : List ScoreOp) : Int :=
  ops.foldl (fun s op => scoreStep op s) 0

lemma scoreStep_nonneg (op : ScoreOp) (s : Int) (hs : 0 ≤ s) :
    0 ≤ scoreStep op s := by
  cases op with
  | reset => simp [scoreStep]
  | speedChaseCorrect b =>
      have := le_max_left 0 b
      simp only [scoreStep]
      omega
  | simonLevel n => simp [scoreStep]
  | whackHit => simp only [scoreStep]; omega
  | whackMiss => exact le_max_left _ _
  | colorCorrect => simp only [scoreStep]; omega
  | colorWrong => exact le_max_left _ _
  | colorRoundBonus => simp only [scoreStep]; omega
  | memoryLevel p => simp only [scoreStep]; positivity
  | patternRound p => simp only [scoreStep]; positivity
  | lightsVictory m l =>
      exact le_trans (by norm_num) (le_max_left 10 _)
  | reactionOver ts => exact le_max_left _ _
  | hotPotatoSafe => simp only [scoreStep]; omega
  | hotPotatoVictory k => simp only [scoreStep]; positivity

lemma scoreRun_go_nonneg (ops : List ScoreOp) (s : Int) (hs : 0 ≤ s) :
    0 ≤ ops.foldl (fun s op => scoreStep op s) s := by
  induction ops generalizing s with
  | nil => exact hs
  | cons op ops ih =>
      rw [List.foldl_cons]
      exact ih _ (scoreStep_nonneg op s hs)

/-- C3: across all eleven games, the score stays a non-negative integer
after every score transition: (1) starting from the initial score 0,
every sequence of score-mutating statements yields a non-negative score;
(2) each single statement preserves non-negativity; (3) every statement
that is not one of the explicit clamped penalties/reassignments only
increases the score. -/
theorem C3_score_nonneg_invariant :
    (∀ ops : List ScoreOp, 0 ≤ scoreRun ops)
    ∧ (∀ (op : ScoreOp) (s : Int), 0 ≤ s → 0 ≤ scoreStep op s)
    ∧ (∀ (op : ScoreOp) (s : Int), op.rescores = false → s ≤ scoreStep op s) := by
  refine ⟨fun ops => scoreRun_go_nonneg ops 0 le_rfl, scoreStep_nonneg, ?_⟩
  intro op s hop
  cases op with
  | reset => simp [ScoreOp.rescores] at hop
  | speedChaseCorrect b =>
      have := le_max_left 0 b
      simp only [scoreStep]
      omega
  | simonLevel n => simp [ScoreOp.rescores] at hop
  | whackHit => simp only [scoreStep]; omega
  | whackMiss => simp [ScoreOp.rescores] at hop
  | colorCorrect => simp only [scoreStep]; omega
  | colorWrong => simp [ScoreOp.rescores] at hop
  | colorRoundBonus => simp only [scoreStep]; omega
  | memoryLevel p => simp only [scoreStep]; omega
  | patternRound p => simp only [scoreStep]; omega
  | lightsVictory m l => simp [ScoreOp.rescores] at hop
  | reactionOver ts => simp [ScoreOp.rescores] at hop
  | hotPotatoSafe => simp only [scoreStep]; omega
  | hotPotatoVictory k => simp only [scoreStep]; omega

/-- Witness for C3 at a concrete run and concrete steps. -/
theorem C3_witness :
    (0 ≤ scoreRun [ScoreOp.whackHit, ScoreOp.whackMiss, ScoreOp.whackMiss,
        ScoreOp.colorWrong])
    ∧ 0 ≤ scoreStep ScoreOp.whackMiss 3
    ∧ (ScoreOp.rescores ScoreOp.whackHit = false
        ∧ (7 : Int) ≤ scoreStep ScoreOp.whackHit 7) :=
  ⟨C3_score_nonneg_invariant.1 _,
    C3_score_nonneg_invariant.2.1 ScoreOp.whackMiss 3 (by norm_num),
    by decide,
    C3_score_nonneg_invariant.2.2 ScoreOp.whackHit 7 (by decide)⟩

end MacroPadGames
